import Mathlib

/-!
Verification of the Twitter location-flag content script.

The content script is shallowly embedded component by component:

* `Cache`     — the in-memory `locationCache` map together with `saveCache`,
  `loadCache`, `saveCacheEntry` and the synchronous cache-consulting prefix of
  `getUserLocation`.
* `Bridge`    — `makeLocationRequest`: the window `postMessage` round trip with
  correlation ids, the 10 second timeout, and the cache writes it performs.
* `Sched`     — the dispatch discipline of `processRequestQueue` in the
  no-rate-limit regime: a guarded-event machine whose `dispatch` event is one
  iteration of the drain loop.
* `Annotator` — `addFlagToUsername`, `removeAllFlags` and `processUsernames`
  as an interleaving machine over a single identifier and two DOM nodes, with
  the `await` points of the source as the suspension points.

Machine integers do not occur; all timestamps are `Nat` milliseconds.
-/

namespace TwitterFlag

/-! ## Location cache

`locationCache` is a JS `Map` from screen name to a location string or `null`;
it is embedded as an association list `MemCache` with `Map.set` / `Map.delete`
/ `Map.get` semantics.  The durable blob written by `saveCache` maps each
screen name to `{location, expiry, cachedAt}`. -/

/-- In-memory `locationCache`: screen name to location string or `null`
(`none`). -/
abbrev MemCache := List (String × Option String)

/-- One entry of the durable storage blob, as written by `saveCache`:
`{ location: ..., expiry: ..., cachedAt: ... }`. -/
structure StoredEntry where
  location : Option String
  expiry : Nat
  cachedAt : Nat
deriving DecidableEq

/-- Durable storage blob under the `twitter_location_cache` key. -/
abbrev StoredCache := List (String × StoredEntry)

/-- `CACHE_EXPIRY_DAYS = 30` converted to milliseconds, as in `saveCache`:
`CACHE_EXPIRY_DAYS * 24 * 60 * 60 * 1000`. -/
def CACHE_EXPIRY_MS : Nat := 30 * 24 * 60 * 60 * 1000

/-- `locationCache.get(k)` (with `has` as `isSome`). -/
def memGet : MemCache → String → Option (Option String)
  | [], _ => none
  | (k', v') :: t, k => if k' = k then some v' else memGet t k

/-- `locationCache.set(k, v)`: replace the binding of `k` if present, else
append it. -/
def memSet : MemCache → String → Option String → MemCache
  | [], k, v => [(k, v)]
  | (k', v') :: t, k, v =>
    if k' = k then (k, v) :: t else (k', v') :: memSet t k v

/-- `locationCache.delete(k)`. -/
def memDelete : MemCache → String → MemCache
  | [], _ => []
  | (k', v') :: t, k => if k' = k then t else (k', v') :: memDelete t k

/-- Field access on the durable blob. -/
def storedGet : StoredCache → String → Option StoredEntry
  | [], _ => none
  | (k', v') :: t, k => if k' = k then some v' else storedGet t k

/-- `saveCache` run at wall-clock time `now`: serialize every in-memory entry
(whatever its value, `null` included) with `expiry = now + 30 days` and
`cachedAt = now`. -/
def saveCache (m : MemCache) (now : Nat) : StoredCache :=
  m.map (fun p => (p.1, ⟨p.2, now + CACHE_EXPIRY_MS, now⟩))

/-- `loadCache` run at wall-clock time `now`: only entries with a truthy
`expiry` that lies in the future and with `location !== null` populate the
in-memory map. -/
def loadCache (stored : StoredCache) (now : Nat) : MemCache :=
  (stored.filter fun p =>
      p.2.expiry != 0 && decide (now < p.2.expiry) && p.2.location.isSome).map
    (fun p => (p.1, p.2.location))

/-- `saveCacheEntry(username, location)`: update the in-memory map immediately.
The debounced flush it arms is modelled by applying `saveCache` to the
resulting map at the (later) flush time. -/
def saveCacheEntry (m : MemCache) (u : String) (loc : Option String) :
    MemCache :=
  memSet m u loc

/-- The synchronous cache-consulting prefix of `getUserLocation`: a cached
non-null location is returned as is; a cached `null` is deleted and a request
is enqueued; a miss enqueues a request.  Returns
(immediate result, updated map, whether a request was enqueued). -/
def getUserLocationSync (m : MemCache) (u : String) :
    Option String × MemCache × Bool :=
  match memGet m u with
  | some (some l) => (some l, m, false)
  | some none => (none, memDelete m u, true)
  | none => (none, m, true)

theorem memGet_memSet_self (m : MemCache) (u : String) (v : Option String) :
    memGet (memSet m u v) u = some v := by
  induction m with
  | nil => simp [memSet, memGet]
  | cons h t ih =>
    by_cases hk : h.1 = u
    · simp [memSet, hk, memGet]
    · simp [memSet, hk, memGet, ih]

theorem saveCache_storedGet (m : MemCache) (now : Nat) (u : String)
    (v : Option String) (h : memGet m u = some v) :
    storedGet (saveCache m now) u = some ⟨v, now + CACHE_EXPIRY_MS, now⟩ := by
  induction m with
  | nil => simp [memGet] at h
  | cons hd t ih =>
    by_cases hk : hd.1 = u
    · simp [memGet, hk] at h
      simp [saveCache, storedGet, hk, h]
    · simp [memGet, hk] at h
      simpa [saveCache, storedGet, hk] using ih h

/-- Every binding produced by `loadCache` comes from a stored entry that is
unexpired and non-null. -/
theorem loadCache_mem (stored : StoredCache) (now : Nat) (u : String)
    (l : Option String) (hp : (u, l) ∈ loadCache stored now) :
    ∃ d : StoredEntry, (u, d) ∈ stored ∧ d.expiry ≠ 0 ∧ now < d.expiry ∧
      d.location = l ∧ l.isSome := by
  simp only [loadCache, List.mem_map, List.mem_filter] at hp
  obtain ⟨q, ⟨hqmem, hq⟩, hmap⟩ := hp
  simp only [Bool.and_eq_true, bne_iff_ne, ne_eq, decide_eq_true_eq] at hq
  have h1 : q.1 = u := congrArg Prod.fst hmap
  have h2 : q.2.location = l := congrArg Prod.snd hmap
  refine ⟨q.2, ?_, hq.1.1, hq.1.2, h2, ?_⟩
  · rw [← h1]
    simpa using hqmem
  · rw [← h2]; exact hq.2

theorem memGet_eq_some_mem (m : MemCache) (u : String) (v : Option String)
    (h : memGet m u = some v) : (u, v) ∈ m := by
  induction m with
  | nil => simp [memGet] at h
  | cons hd t ih =>
    by_cases hk : hd.1 = u
    · simp [memGet, hk] at h
      subst hk; subst h
      exact List.mem_cons_self _ _
    · simp [memGet, hk] at h
      exact List.mem_cons_of_mem _ (ih h)

/-- A reloaded cache never maps a key to `null`. -/
theorem loadCache_no_null (stored : StoredCache) (now : Nat) (u : String) :
    memGet (loadCache stored now) u ≠ some none := by
  intro h
  obtain ⟨d, _, _, _, _, hsome⟩ :=
    loadCache_mem stored now u none (memGet_eq_some_mem _ _ _ h)
  simp at hsome

/-- C1, counterexample.  The claim says a `put` with `null` is excluded from
the debounced durable flush, so that a null entry is never written to
persistent storage.  In the source, `saveCache` serializes every entry of
`locationCache` without filtering, so after `saveCacheEntry("alice", null)`
the flush at time 1000 writes `alice ↦ {location: null, ...}` to storage. -/
theorem C1_counterexample :
    storedGet (saveCache (saveCacheEntry [] "alice" none) 1000) "alice" =
      some ⟨none, 1000 + CACHE_EXPIRY_MS, 1000⟩ := by
  decide

/-- C1, amended.  A `put` with `null` updates the in-memory map and is
included in the debounced durable flush (the null entry is written to
persistent storage), but `loadCache` filters `location !== null`, so no null
binding survives a reload. -/
theorem C1_null_put_roundtrip (m : MemCache) (u : String) (now t : Nat) :
    memGet (saveCacheEntry m u none) u = some none ∧
    storedGet (saveCache (saveCacheEntry m u none) now) u =
      some ⟨none, now + CACHE_EXPIRY_MS, now⟩ ∧
    memGet (loadCache (saveCache (saveCacheEntry m u none) now) t) u ≠
      some none := by
  refine ⟨memGet_memSet_self m u none, ?_, loadCache_no_null _ t u⟩
  exact saveCache_storedGet _ now u none (memGet_memSet_self m u none)

/-- C5, counterexample.  The claim says a Location Record expires 30 days
after its creation and that an expired record is removed by lazy eviction on
the next lookup past expiry.  In the source: (a) a flush at time `86400000`
re-stamps the record cached at time `0` with `expiry = 86400000 + 30 days`,
so the window restarts at every flush instead of being fixed at creation;
(b) the in-session lookup path of `getUserLocation` takes no clock and
performs no expiry check at all — it returns the cached location unchanged
however old the record is (here the record written at time `0` expires at
`CACHE_EXPIRY_MS`, yet any later in-session lookup still answers from it). -/
theorem C5_counterexample :
    storedGet (saveCache (saveCacheEntry [] "alice" (some "Paris, France")) 0)
        "alice" = some ⟨some "Paris, France", CACHE_EXPIRY_MS, 0⟩ ∧
    getUserLocationSync (saveCacheEntry [] "alice" (some "Paris, France"))
        "alice" =
      (some "Paris, France", saveCacheEntry [] "alice" (some "Paris, France"),
        false) ∧
    storedGet
        (saveCache (saveCacheEntry [] "alice" (some "Paris, France")) 86400000)
        "alice" =
      some ⟨some "Paris, France", 86400000 + CACHE_EXPIRY_MS, 86400000⟩ := by
  refine ⟨by decide, by decide, by decide⟩

/-- C5, amended.  Each durable flush stamps every record with
`expiry = flush time + 30 days` (the retention window restarts at each flush
rather than being counted from creation); entries that are expired are dropped
when the cache is loaded from durable storage; and an in-memory lookup of a
cached non-null location returns it without any expiry check or eviction. -/
theorem C5_retention_semantics :
    (∀ (m : MemCache) (now : Nat) (u : String) (v : Option String),
      memGet m u = some v →
        storedGet (saveCache m now) u = some ⟨v, now + CACHE_EXPIRY_MS, now⟩) ∧
    (∀ (stored : StoredCache) (now : Nat) (u : String) (l : Option String),
      (u, l) ∈ loadCache stored now →
        ∃ d : StoredEntry, (u, d) ∈ stored ∧ now < d.expiry) ∧
    (∀ (m : MemCache) (u l : String), memGet m u = some (some l) →
      getUserLocationSync m u = (some l, m, false)) := by
  refine ⟨fun m now u v h => saveCache_storedGet m now u v h, ?_, ?_⟩
  · intro stored now u l hp
    obtain ⟨d, hd, _, hlt, _, _⟩ := loadCache_mem stored now u l hp
    exact ⟨d, hd, hlt⟩
  · intro m u l h
    simp [getUserLocationSync, h]

/-- C5, witness for the amended theorem at concrete inputs. -/
theorem C5_retention_semantics_witness :
    storedGet (saveCache [("alice", some "Paris, France")] 5) "alice" =
      some ⟨some "Paris, France", 5 + CACHE_EXPIRY_MS, 5⟩ ∧
    (∃ d : StoredEntry,
      ("alice", d) ∈ ([("alice", ⟨some "Paris, France", 10, 0⟩)] :
        StoredCache) ∧ 3 < d.expiry) ∧
    getUserLocationSync [("alice", some "Paris, France")] "alice" =
      (some "Paris, France", [("alice", some "Paris, France")], false) :=
  ⟨C5_retention_semantics.1 [("alice", some "Paris, France")] 5 "alice"
      (some "Paris, France") (by decide),
   C5_retention_semantics.2.1 [("alice", ⟨some "Paris, France", 10, 0⟩)] 3
      "alice" (some "Paris, France") (by decide),
   C5_retention_semantics.2.2 [("alice", some "Paris, France")] "alice"
      "Paris, France" (by decide)⟩

/-! ## Bridge channel

`makeLocationRequest(screenName)` posts `{type: '__fetchLocation', screenName,
requestId}` and installs a window message listener that waits for a matching
`'__locationResponse'`; a 10 second timeout removes the listener and resolves
`null`.  The embedding replays a timeline of incoming window messages (with
their arrival times) against the promise executor's state: the listener flag,
the promise's settled value (a JS promise keeps the first value passed to
`resolve`), the number of `resolve`/`reject` invocations, and the
`saveCacheEntry` calls the handler performs. -/

/-- An incoming `window` message, as inspected by the response handler. -/
structure BridgeMsg where
  sourceIsWindow : Bool
  msgType : String
  screenName : String
  requestId : Nat
  location : Option String
  isRateLimited : Bool
deriving DecidableEq

/-- State of one `makeLocationRequest` promise executor. -/
structure PromiseState where
  settled : Option (Option String)
  resolveCalls : Nat
  rejectCalls : Nat
  listenerActive : Bool
  cacheWrites : List (String × Option String)
deriving DecidableEq

def initPromise : PromiseState :=
  { settled := none, resolveCalls := 0, rejectCalls := 0,
    listenerActive := true, cacheWrites := [] }

/-- JS `location || null`: the empty string is falsy. -/
def orNull (l : Option String) : Option String :=
  match l with
  | some s => if s = "" then none else some s
  | none => none

/-- The handler's match condition: same source window, message type,
screen name and correlation id. -/
def matchesResp (name : String) (id : Nat) (m : BridgeMsg) : Bool :=
  m.sourceIsWindow && m.msgType == "__locationResponse" &&
    m.screenName == name && m.requestId == id

/-- Calling `resolve v` on the promise: the first call settles it, any later
call is ignored by the promise machinery. -/
def resolveP (st : PromiseState) (v : Option String) : PromiseState :=
  { st with resolveCalls := st.resolveCalls + 1,
            settled := match st.settled with
                       | none => some v
                       | some w => some w }

/-- One window message against the handler: on a match while the listener is
registered, the listener is removed, the result is cached via
`saveCacheEntry` unless the response is rate-limited, and the promise is
resolved with `location || null`. -/
def handleMsg (name : String) (id : Nat) (st : PromiseState) (m : BridgeMsg) :
    PromiseState :=
  if st.listenerActive && matchesResp name id m then
    let st1 := { st with listenerActive := false }
    let st2 :=
      if m.isRateLimited then st1
      else { st1 with cacheWrites := st1.cacheWrites ++ [(name, orNull m.location)] }
    resolveP st2 (orNull m.location)
  else st

/-- The 10 second timeout callback: remove the listener and resolve `null`
(the timer fires unconditionally at 10000 ms). -/
def timeoutFire (st : PromiseState) : PromiseState :=
  resolveP { st with listenerActive := false } none

def TIMEOUT_MS : Nat := 10000

/-- Run one `makeLocationRequest` executor against a timeline of window
messages: messages arriving before 10000 ms are seen by the live listener,
then the timeout fires, then the remaining messages arrive. -/
def runBridge (name : String) (id : Nat) (msgs : List (Nat × BridgeMsg)) :
    PromiseState :=
  let pre := msgs.filter fun tm => decide (tm.1 < TIMEOUT_MS)
  let post := msgs.filter fun tm => !decide (tm.1 < TIMEOUT_MS)
  let st1 := pre.foldl (fun st tm => handleMsg name id st tm.2) initPromise
  post.foldl (fun st tm => handleMsg name id st tm.2) (timeoutFire st1)

theorem handleMsg_inactive (name : String) (id : Nat) (st : PromiseState)
    (m : BridgeMsg) (h : st.listenerActive = false) :
    handleMsg name id st m = st := by
  simp [handleMsg, h]

theorem foldl_handleMsg_inactive (name : String) (id : Nat)
    (st : PromiseState) (h : st.listenerActive = false) :
    ∀ l : List (Nat × BridgeMsg),
      l.foldl (fun st tm => handleMsg name id st tm.2) st = st := by
  intro l
  induction l with
  | nil => rfl
  | cons hd t ih => simpa [handleMsg_inactive name id st hd.2 h] using ih

theorem timeoutFire_listener (st : PromiseState) :
    (timeoutFire st).listenerActive = false := by
  simp [timeoutFire, resolveP]

theorem timeoutFire_settled (st : PromiseState) :
    (timeoutFire st).settled.isSome = true := by
  simp only [timeoutFire, resolveP]
  cases st.settled <;> simp

theorem handleMsg_rejectCalls (name : String) (id : Nat) (st : PromiseState)
    (m : BridgeMsg) : (handleMsg name id st m).rejectCalls = st.rejectCalls := by
  simp only [handleMsg, resolveP]
  repeat' split
  all_goals rfl

theorem foldl_handleMsg_rejectCalls (name : String) (id : Nat) :
    ∀ (l : List (Nat × BridgeMsg)) (st : PromiseState),
      (l.foldl (fun st tm => handleMsg name id st tm.2) st).rejectCalls =
        st.rejectCalls := by
  intro l
  induction l with
  | nil => intro st; rfl
  | cons hd t ih =>
    intro st
    simpa [ih] using handleMsg_rejectCalls name id st hd.2

theorem foldl_handleMsg_nomatch (name : String) (id : Nat) :
    ∀ (l : List (Nat × BridgeMsg)) (st : PromiseState),
      (∀ tm ∈ l, matchesResp name id tm.2 = false) →
      l.foldl (fun st tm => handleMsg name id st tm.2) st = st := by
  intro l
  induction l with
  | nil => intro st _; rfl
  | cons hd t ih =>
    intro st hl
    have h1 : handleMsg name id st hd.2 = st := by
      simp [handleMsg, hl hd (List.mem_cons_self _ _)]
    simpa [h1] using
      ih st (fun tm htm => hl tm (List.mem_cons_of_mem _ htm))

theorem timeoutFire_rejectCalls (st : PromiseState) :
    (timeoutFire st).rejectCalls = st.rejectCalls := by
  simp [timeoutFire, resolveP]

theorem runBridge_eq_timeout (name : String) (id : Nat)
    (msgs : List (Nat × BridgeMsg)) :
    runBridge name id msgs =
      timeoutFire ((msgs.filter fun tm => decide (tm.1 < TIMEOUT_MS)).foldl
        (fun st tm => handleMsg name id st tm.2) initPromise) := by
  simp only [runBridge]
  exact foldl_handleMsg_inactive name id _ (timeoutFire_listener _) _

/-- C3.  A bridge request always settles by `resolve` (never by `reject`):
after the 10-second mark the promise is settled and the listener is
deregistered; if no matching response arrived before the timeout, the promise
resolved to no-location (`null`); and a matching response arriving after the
timeout leaves the executor's state exactly as it was — it neither resolves
again nor throws. -/
theorem C3_bridge_request_never_hangs (name : String) (id : Nat)
    (msgs : List (Nat × BridgeMsg)) :
    (runBridge name id msgs).settled.isSome = true ∧
    (runBridge name id msgs).rejectCalls = 0 ∧
    (runBridge name id msgs).listenerActive = false ∧
    ((∀ tm ∈ msgs, tm.1 < TIMEOUT_MS → matchesResp name id tm.2 = false) →
      (runBridge name id msgs).settled = some none) ∧
    (∀ (t : Nat) (m : BridgeMsg), TIMEOUT_MS ≤ t →
      runBridge name id (msgs ++ [(t, m)]) = runBridge name id msgs) := by
  refine ⟨?_, ?_, ?_, ?_, ?_⟩
  · rw [runBridge_eq_timeout]
    exact timeoutFire_settled _
  · rw [runBridge_eq_timeout, timeoutFire_rejectCalls,
      foldl_handleMsg_rejectCalls]
    rfl
  · rw [runBridge_eq_timeout]
    exact timeoutFire_listener _
  · intro h
    rw [runBridge_eq_timeout]
    have hpre : ∀ tm ∈ msgs.filter (fun tm => decide (tm.1 < TIMEOUT_MS)),
        matchesResp name id tm.2 = false := by
      intro tm htm
      rw [List.mem_filter] at htm
      exact h tm htm.1 (by simpa using htm.2)
    rw [foldl_handleMsg_nomatch name id _ initPromise hpre]
    rfl
  · intro t m ht
    have hnot : decide (t < TIMEOUT_MS) = false := by
      simp [Nat.not_lt.mpr ht]
    have hpre : (msgs ++ [(t, m)]).filter (fun tm => decide (tm.1 < TIMEOUT_MS))
        = msgs.filter (fun tm => decide (tm.1 < TIMEOUT_MS)) := by
      simp [List.filter_append, hnot]
    have hpost : (msgs ++ [(t, m)]).filter
          (fun tm => !decide (tm.1 < TIMEOUT_MS))
        = msgs.filter (fun tm => !decide (tm.1 < TIMEOUT_MS)) ++ [(t, m)] := by
      simp [List.filter_append, hnot]
    simp only [runBridge, hpre, hpost, List.foldl_append, List.foldl_cons,
      List.foldl_nil]
    apply handleMsg_inactive
    rw [foldl_handleMsg_inactive name id _ (timeoutFire_listener _)]
    exact timeoutFire_listener _

/-- C3, witness: concrete instantiation with an empty timeline and a matching
late response at 12000 ms. -/
theorem C3_bridge_request_never_hangs_witness :
    (runBridge "alice" 7 []).settled = some none ∧
    runBridge "alice" 7
        ([] ++ [(12000, ⟨true, "__locationResponse", "alice", 7,
          some "Paris, France", false⟩)]) =
      runBridge "alice" 7 [] := by
  have h := C3_bridge_request_never_hangs "alice" 7 []
  exact ⟨h.2.2.2.1 (by intro tm htm; simp at htm),
    h.2.2.2.2 12000 ⟨true, "__locationResponse", "alice", 7,
      some "Paris, France", false⟩ (by decide)⟩

/-! ## Request scheduler

`processRequestQueue` drains the FIFO `requestQueue`.  With no rate limit in
effect (`rateLimitResetTime = 0` throughout), one iteration of the drain loop
runs only when the queue is non-empty and `activeRequests <
MAX_CONCURRENT_REQUESTS`; it first sleeps until at least
`MIN_REQUEST_INTERVAL` ms have passed since `lastRequestTime`, then shifts a
request, increments `activeRequests`, stamps `lastRequestTime` with the
dispatch start time, and fires the request.  The `isProcessingQueue` flag
guarantees a single active drain loop, so `lastRequestTime` is only written by
dispatches.  The embedding is a guarded-event machine: `dispatch` is one such
iteration (its guard is exactly the condition under which the iteration
dispatches after its sleep), `complete` is the `finally` block of a finished
request, `tick` is the passage of time and `enqueue` a `getUserLocation`
push.  `dispatches` records every dispatch start time. -/

def MIN_REQUEST_INTERVAL : Nat := 500
def MAX_CONCURRENT_REQUESTS : Nat := 5

structure SchedState where
  queue : Nat
  activeRequests : Nat
  lastRequestTime : Nat
  now : Nat
  dispatches : List Nat
deriving DecidableEq

inductive SchedEv
  | tick (d : Nat)
  | enqueue
  | dispatch
  | complete

def schedStep : SchedEv → SchedState → SchedState
  | .tick d, s => { s with now := s.now + d }
  | .enqueue, s => { s with queue := s.queue + 1 }
  | .dispatch, s =>
    if 0 < s.queue ∧ s.activeRequests < MAX_CONCURRENT_REQUESTS ∧
        s.lastRequestTime + MIN_REQUEST_INTERVAL ≤ s.now then
      { s with queue := s.queue - 1, activeRequests := s.activeRequests + 1,
               lastRequestTime := s.now,
               dispatches := s.dispatches ++ [s.now] }
    else s
  | .complete, s =>
    if 0 < s.activeRequests then
      { s with activeRequests := s.activeRequests - 1 }
    else s

def schedInit : SchedState :=
  { queue := 0, activeRequests := 0, lastRequestTime := 0, now := 0,
    dispatches := [] }

def schedExec (evs : List SchedEv) (s : SchedState) : SchedState :=
  evs.foldl (fun s e => schedStep e s) s

/-- Scheduler invariant: bounded concurrency, dispatch start times spaced by
at least the minimum interval, and `lastRequestTime` at least the last
dispatch time and at most the clock. -/
def SchedInv (s : SchedState) : Prop :=
  s.activeRequests ≤ MAX_CONCURRENT_REQUESTS ∧
  s.dispatches.Chain' (fun a b => a + MIN_REQUEST_INTERVAL ≤ b) ∧
  (∀ x ∈ s.dispatches.getLast?, x ≤ s.lastRequestTime) ∧
  s.lastRequestTime ≤ s.now

theorem schedStep_inv (e : SchedEv) (s : SchedState) (h : SchedInv s) :
    SchedInv (schedStep e s) := by
  obtain ⟨h1, h2, h3, h4⟩ := h
  cases e with
  | tick d => exact ⟨h1, h2, h3, le_trans h4 (Nat.le_add_right _ _)⟩
  | enqueue => exact ⟨h1, h2, h3, h4⟩
  | complete =>
    simp only [schedStep]
    split
    · exact ⟨le_trans (Nat.sub_le _ _) h1, h2, h3, h4⟩
    · exact ⟨h1, h2, h3, h4⟩
  | dispatch =>
    simp only [schedStep]
    split
    · rename_i hg
      obtain ⟨hq, ha, ht⟩ := hg
      refine ⟨ha, ?_, ?_, le_refl _⟩
      · rw [List.chain'_append]
        refine ⟨h2, List.chain'_singleton _, ?_⟩
        intro x hx y hy
        simp only [List.head?_cons, Option.mem_def, Option.some.injEq] at hy
        subst hy
        have := h3 x hx
        omega
      · show ∀ x ∈ (s.dispatches ++ [s.now]).getLast?, x ≤ s.now
        intro x hx
        simp only [List.getLast?_concat, Option.mem_def,
          Option.some.injEq] at hx
        omega
    · exact ⟨h1, h2, h3, h4⟩

theorem schedExec_inv (evs : List SchedEv) :
    ∀ s : SchedState, SchedInv s → SchedInv (schedExec evs s) := by
  induction evs with
  | nil => intro s h; exact h
  | cons e t ih =>
    intro s h
    exact ih (schedStep e s) (schedStep_inv e s h)

/-- C4.  In the no-rate-limit regime, along every event sequence from the
initial scheduler state, consecutive dispatch start times are at least
`MIN_REQUEST_INTERVAL` (500 ms) apart — measured from the last dispatched
request's start time — and at no instant are more than
`MAX_CONCURRENT_REQUESTS` (5) resolutions in flight. -/
theorem C4_dispatch_spacing_and_concurrency (evs : List SchedEv) :
    (schedExec evs schedInit).activeRequests ≤ MAX_CONCURRENT_REQUESTS ∧
    (schedExec evs schedInit).dispatches.Chain'
      (fun a b => a + MIN_REQUEST_INTERVAL ≤ b) := by
  have h := schedExec_inv evs schedInit
    ⟨by simp [schedInit, MAX_CONCURRENT_REQUESTS], by simp [schedInit],
      by simp [schedInit], by simp [schedInit]⟩
  exact ⟨h.1, h.2.1⟩

/-! ## Flag annotator

`addFlagToUsername(usernameElement, screenName)` is embedded as an
interleaving machine over one identifier and two `User-Name` container nodes
(`n0`, `n1`), with two call slots (`tA`, `tB`).  The suspension points of the
async source function delimit its atomic segments:

* `seg1` — the synchronous prefix: the `flagAdded === 'true'` entry guard;
  the `processingUsernames` dedup branch (which suspends in a 500 ms sleep,
  `PC.sleeping`); otherwise mark `processing`, add the identifier to the
  in-progress set, insert the loading shimmer, and run the synchronous prefix
  of `getUserLocation` — answering from the cache (`PC.awaitCache`), or
  deleting a cached `null` and enqueueing a request, or enqueueing on a miss
  (`PC.awaitNet`, with `requests` counting enqueued resolution requests).
* `wake` — the continuation after the 500 ms dedup sleep: re-check the
  marker, else set it to `'waiting'` and return.
* `seg2` — the continuation after `await getUserLocation`: remove this
  call's shimmer if still attached; on a null location or no country code or
  no locatable username link, mark `'failed'`; otherwise skip insertion if a
  flag-marked child exists, else insert the flag image; mark `'true'`; the
  `finally` block removes the identifier from the in-progress set.

Locations are abstracted to whether the external `getCountryCode` table maps
them (`Bool`); the page-script side of a network resolution is the `deliver`
event, whose `doCache` flag is false exactly for the timeout path and the
rate-limited path of `makeLocationRequest` (which do not call
`saveCacheEntry`).  `disable`/`enable` are the `extensionToggle` message and
`scan` is one `processUsernames` visit of a node (which skips any node whose
`data-flag-added` attribute is set, and otherwise invokes the annotator). -/

namespace Annotator

/-- The per-node `data-flag-added` attribute. -/
inductive Marker
  | unset
  | processing
  | waiting
  | flagged
  | failed
deriving DecidableEq

/-- A `User-Name` container node: its marker attribute, the number of
flag-image children (`[data-twitter-flag]`), and whether the username-link
heuristics can locate an anchor in it. -/
structure DomNode where
  marker : Marker
  flags : Nat
  hasLink : Bool
deriving DecidableEq

/-- Program counter of one `addFlagToUsername` call. -/
inductive PC
  | notStarted
  | started
  | sleeping
  | awaitCache (hasCode : Bool)
  | awaitNet
  | finished
deriving DecidableEq

/-- One call slot: the node it targets (`false` for `n0`, `true` for `n1`),
its program counter, and whether its shimmer span is currently attached. -/
structure Thread where
  node : Bool
  pc : PC
  shimmer : Bool
deriving DecidableEq

/-- Whole-page state: the two nodes, the two call slots, the
`processingUsernames` membership of the one identifier, its `locationCache`
entry (`some none` is a cached `null`), the count of enqueued resolution
requests, and `extensionEnabled`. -/
structure Sys where
  n0 : DomNode
  n1 : DomNode
  tA : Thread
  tB : Thread
  inProgress : Bool
  cache : Option (Option Bool)
  requests : Nat
  enabled : Bool
deriving DecidableEq

def getNode (s : Sys) (j : Bool) : DomNode := if j then s.n1 else s.n0

def setNode (s : Sys) (j : Bool) (n : DomNode) : Sys :=
  if j then { s with n1 := n } else { s with n0 := n }

def getThread (s : Sys) (i : Bool) : Thread := if i then s.tB else s.tA

def setThread (s : Sys) (i : Bool) (t : Thread) : Sys :=
  if i then { s with tB := t } else { s with tA := t }

def setMarker (s : Sys) (j : Bool) (m : Marker) : Sys :=
  setNode s j { getNode s j with marker := m }

def setPC (s : Sys) (i : Bool) (p : PC) : Sys :=
  setThread s i { getThread s i with pc := p }

/-- The synchronous prefix of `addFlagToUsername`. -/
def seg1 (s : Sys) (i : Bool) : Sys :=
  let t := getThread s i
  if (getNode s t.node).marker = .flagged then setPC s i .finished
  else if s.inProgress then setPC s i .sleeping
  else
    let s1 := setMarker s t.node .processing
    let s2 := { s1 with inProgress := true }
    let s3 := setThread s2 i { getThread s2 i with shimmer := true }
    match s3.cache with
    | some (some lv) => setPC s3 i (.awaitCache lv)
    | some none =>
      { setPC s3 i .awaitNet with cache := none, requests := s3.requests + 1 }
    | none => { setPC s3 i .awaitNet with requests := s3.requests + 1 }

/-- The continuation after the 500 ms dedup sleep. -/
def wake (s : Sys) (i : Bool) : Sys :=
  let t := getThread s i
  if (getNode s t.node).marker = .flagged then setPC s i .finished
  else setPC (setMarker s t.node .waiting) i .finished

/-- The continuation of `addFlagToUsername` after `await getUserLocation`,
with the resolved location (abstracted to whether `getCountryCode` maps it). -/
def seg2 (s : Sys) (i : Bool) (loc : Option Bool) : Sys :=
  let t := getThread s i
  let s0 := if t.shimmer then setThread s i { t with shimmer := false } else s
  let finish := fun (s' : Sys) (m : Marker) =>
    { setPC (setMarker s' (getThread s' i).node m) i .finished with
        inProgress := false }
  match loc with
  | none => finish s0 .failed
  | some hasCode =>
    if !hasCode then finish s0 .failed
    else if !(getNode s0 (getThread s0 i).node).hasLink then finish s0 .failed
    else if 0 < (getNode s0 (getThread s0 i).node).flags then
      finish s0 .flagged
    else
      let nd := getNode s0 (getThread s0 i).node
      finish (setNode s0 (getThread s0 i).node { nd with flags := nd.flags + 1 })
        .flagged

/-- `removeAllFlags`: remove every flag image and shimmer, delete every
`data-flag-added` attribute, clear `locationCache` and
`processingUsernames`. -/
def removeAllFlags (s : Sys) : Sys :=
  { s with
    n0 := { s.n0 with marker := .unset, flags := 0 },
    n1 := { s.n1 with marker := .unset, flags := 0 },
    tA := { s.tA with shimmer := false },
    tB := { s.tB with shimmer := false },
    cache := none,
    inProgress := false }

/-- `processUsernames` visiting node `j` with free call slot `i`: skipped
when disabled or when the node carries any `data-flag-added` value; otherwise
the annotator is invoked on the node. -/
def scanStart (s : Sys) (i j : Bool) : Sys :=
  if s.enabled ∧ (getNode s j).marker = .unset ∧
      ((getThread s i).pc = .notStarted ∨ (getThread s i).pc = .finished) then
    setThread s i { node := j, pc := .started, shimmer := false }
  else s

inductive Ev
  | run (i : Bool)
  | deliver (i : Bool) (loc : Option Bool) (doCache : Bool)
  | disable
  | enable
  | scan (i : Bool) (j : Bool)
deriving DecidableEq

/-- One scheduler step: run a pending synchronous segment of a call, deliver
a network resolution to a call awaiting one, toggle, or scan. -/
def step (e : Ev) (s : Sys) : Sys :=
  match e with
  | .run i =>
    match (getThread s i).pc with
    | .started => seg1 s i
    | .sleeping => wake s i
    | .awaitCache lv => seg2 s i (some lv)
    | _ => s
  | .deliver i loc doCache =>
    if (getThread s i).pc = .awaitNet then
      let s1 := if doCache then { s with cache := some loc } else s
      seg2 s1 i loc
    else s
  | .disable => removeAllFlags { s with enabled := false }
  | .enable => { s with enabled := true }
  | .scan i j => scanStart s i j

def exec (evs : List Ev) (s : Sys) : Sys :=
  evs.foldl (fun s e => step e s) s

end Annotator

namespace Annotator

/-! To settle trace-universal properties of the machine, its reachable state
sets are enumerated explicitly.  States are packed into `Nat` by `encSys`
(with `decSys` a retraction, `decSys_encSys`), so that membership tests in
the enumerated sets are cheap numeric comparisons; `exec_closedN` then turns
a closure check over such a finite set into a statement about all event
sequences. -/

def b2n (b : Bool) : Nat := if b then 1 else 0

def encM : Marker → Nat
  | .unset => 0
  | .processing => 1
  | .waiting => 2
  | .flagged => 3
  | .failed => 4

def decM : Nat → Marker
  | 0 => .unset
  | 1 => .processing
  | 2 => .waiting
  | 3 => .flagged
  | _ => .failed

def encPC : PC → Nat
  | .notStarted => 0
  | .started => 1
  | .sleeping => 2
  | .awaitCache false => 3
  | .awaitCache true => 4
  | .awaitNet => 5
  | .finished => 6

def decPC : Nat → PC
  | 0 => .notStarted
  | 1 => .started
  | 2 => .sleeping
  | 3 => .awaitCache false
  | 4 => .awaitCache true
  | 5 => .awaitNet
  | _ => .finished

def encC : Option (Option Bool) → Nat
  | none => 0
  | some none => 1
  | some (some false) => 2
  | some (some true) => 3

def decC : Nat → Option (Option Bool)
  | 0 => none
  | 1 => some none
  | 2 => some (some false)
  | _ => some (some true)

/-- Kernel-computable pairing: `packPair a b = 2 ^ a * (2 * b + 1) - 1`. -/
def packPair (a b : Nat) : Nat := 2 ^ a * (2 * b + 1) - 1

/-- Fuel-driven 2-adic valuation: splits `y` as `2 ^ a * (2 * b + 1)`. -/
def upAux : Nat → Nat → Nat × Nat
  | 0, y => (0, y)
  | fuel + 1, y =>
    if y % 2 == 1 then (0, y / 2)
    else
      let p := upAux fuel (y / 2)
      (p.1 + 1, p.2)

def unpackPair (x : Nat) : Nat × Nat := upAux (x + 1) (x + 1)

theorem upAux_pow (a : Nat) : ∀ (fuel b : Nat), a < fuel →
    upAux fuel (2 ^ a * (2 * b + 1)) = (a, b) := by
  induction a with
  | zero =>
    intro fuel b h
    obtain ⟨f, rfl⟩ := Nat.exists_eq_succ_of_ne_zero (Nat.pos_iff_ne_zero.mp h)
    have h1 : 2 ^ 0 * (2 * b + 1) = 2 * b + 1 := by ring
    have hmod : (2 * b + 1) % 2 = 1 := by omega
    have hdiv : (2 * b + 1) / 2 = b := by omega
    rw [h1, upAux]
    simp [hmod, hdiv]
  | succ a ih =>
    intro fuel b h
    obtain ⟨f, rfl⟩ := Nat.exists_eq_succ_of_ne_zero
      (Nat.pos_iff_ne_zero.mp (Nat.lt_of_le_of_lt (Nat.zero_le _) h))
    have hy : 2 ^ (a + 1) * (2 * b + 1) = 2 * (2 ^ a * (2 * b + 1)) := by
      rw [Nat.pow_succ]
      ring
    have hmod : (2 * (2 ^ a * (2 * b + 1))) % 2 = 0 := Nat.mul_mod_right 2 _
    have hdiv : (2 * (2 ^ a * (2 * b + 1))) / 2 = 2 ^ a * (2 * b + 1) :=
      Nat.mul_div_cancel_left _ (by omega)
    have hrec := ih f b (Nat.lt_of_succ_lt_succ h)
    rw [upAux, hy]
    simp [hmod, hdiv, hrec]

theorem unpackPair_packPair (a b : Nat) : unpackPair (packPair a b) = (a, b) := by
  have hpos : 1 ≤ 2 ^ a * (2 * b + 1) :=
    Nat.one_le_iff_ne_zero.mpr (by positivity)
  have hx : packPair a b + 1 = 2 ^ a * (2 * b + 1) := by
    rw [packPair]
    omega
  rw [unpackPair, hx]
  exact upAux_pow a _ b
    (Nat.lt_of_lt_of_le (Nat.lt_two_pow a)
      (Nat.le_mul_of_pos_right _ (by omega)))

theorem encM_lt : ∀ m : Marker, encM m < 5
  | .unset => by decide
  | .processing => by decide
  | .waiting => by decide
  | .flagged => by decide
  | .failed => by decide

theorem encPC_lt : ∀ p : PC, encPC p < 7
  | .notStarted => by decide
  | .started => by decide
  | .sleeping => by decide
  | .awaitCache false => by decide
  | .awaitCache true => by decide
  | .awaitNet => by decide
  | .finished => by decide

theorem encC_lt : ∀ c : Option (Option Bool), encC c < 4
  | none => by decide
  | some none => by decide
  | some (some false) => by decide
  | some (some true) => by decide

theorem b2n_lt (b : Bool) : b2n b < 2 := by cases b <;> decide

theorem decM_encM (m : Marker) : decM (encM m) = m := by
  cases m <;> rfl

theorem decPC_encPC (p : PC) : decPC (encPC p) = p := by
  cases p with
  | awaitCache b => cases b <;> rfl
  | _ => rfl

theorem decC_encC (c : Option (Option Bool)) : decC (encC c) = c := by
  match c with
  | none => rfl
  | some none => rfl
  | some (some false) => rfl
  | some (some true) => rfl

theorem b2n_eq_one (b : Bool) : (b2n b == 1) = b := by
  cases b <;> rfl

/-- The bounded fields of a state, packed in mixed radix
(2·4·2·2·2·7·2·2·7·5·2·5·2 = 1254400 combinations). -/
def encSmall (s : Sys) : Nat :=
  b2n s.enabled + 2 * (encC s.cache + 4 * (b2n s.inProgress + 2 *
    (b2n s.tA.node + 2 * (b2n s.tA.shimmer + 2 * (encPC s.tA.pc + 7 *
    (b2n s.tB.node + 2 * (b2n s.tB.shimmer + 2 * (encPC s.tB.pc + 7 *
    (encM s.n0.marker + 5 * (b2n s.n0.hasLink + 2 *
    (encM s.n1.marker + 5 * b2n s.n1.hasLink)))))))))))

/-- Injective packing of a whole state into `Nat`: bounded fields in mixed
radix, the three unbounded counters via `packPair`. -/
def encSys (s : Sys) : Nat :=
  encSmall s + 1254400 * packPair s.n0.flags (packPair s.n1.flags s.requests)

def decSys (x : Nat) : Sys :=
  let s0 := x % 1254400
  let big := x / 1254400
  let en := s0 % 2 == 1
  let s1 := s0 / 2
  let cc := decC (s1 % 4)
  let s2 := s1 / 4
  let ip := s2 % 2 == 1
  let s3 := s2 / 2
  let an := s3 % 2 == 1
  let s4 := s3 / 2
  let ash := s4 % 2 == 1
  let s5 := s4 / 2
  let apc := decPC (s5 % 7)
  let s6 := s5 / 7
  let bn := s6 % 2 == 1
  let s7 := s6 / 2
  let bsh := s7 % 2 == 1
  let s8 := s7 / 2
  let bpc := decPC (s8 % 7)
  let s9 := s8 / 7
  let m0 := decM (s9 % 5)
  let s10 := s9 / 5
  let l0 := s10 % 2 == 1
  let s11 := s10 / 2
  let m1 := decM (s11 % 5)
  let s12 := s11 / 5
  let l1 := s12 % 2 == 1
  let f0 := (unpackPair big).1
  let rest := (unpackPair big).2
  ⟨⟨m0, f0, l0⟩, ⟨m1, (unpackPair rest).1, l1⟩, ⟨an, apc, ash⟩,
   ⟨bn, bpc, bsh⟩, ip, cc, (unpackPair rest).2, en⟩

theorem decSys_encSys (s : Sys) : decSys (encSys s) = s := by
  obtain ⟨⟨m0, f0, l0⟩, ⟨m1, f1, l1⟩, ⟨an, apc, ash⟩, ⟨bn, bpc, bsh⟩,
    ip, cc, req, en⟩ := s
  have hm0 := encM_lt m0
  have hm1 := encM_lt m1
  have hpa := encPC_lt apc
  have hpb := encPC_lt bpc
  have hc := encC_lt cc
  have hen := b2n_lt en
  have hip := b2n_lt ip
  have hna := b2n_lt an
  have hsa := b2n_lt ash
  have hnb := b2n_lt bn
  have hsb := b2n_lt bsh
  have hl0 := b2n_lt l0
  have hl1 := b2n_lt l1
  simp only [encSys, encSmall, decSys]
  set X := b2n en + 2 * (encC cc + 4 * (b2n ip + 2 *
    (b2n an + 2 * (b2n ash + 2 * (encPC apc + 7 *
    (b2n bn + 2 * (b2n bsh + 2 * (encPC bpc + 7 *
    (encM m0 + 5 * (b2n l0 + 2 *
    (encM m1 + 5 * b2n l1))))))))))) with hXdef
  set P := packPair f0 (packPair f1 req) with hPdef
  have hX : X < 1254400 := by omega
  have h1 : (X + 1254400 * P) % 1254400 = X := by omega
  have h2 : (X + 1254400 * P) / 1254400 = P := by omega
  rw [h1, h2]
  have q0 : X % 2 = b2n en := by omega
  have q1 : X / 2 % 4 = encC cc := by omega
  have q2 : X / 2 / 4 % 2 = b2n ip := by omega
  have q3 : X / 2 / 4 / 2 % 2 = b2n an := by omega
  have q4 : X / 2 / 4 / 2 / 2 % 2 = b2n ash := by omega
  have q5 : X / 2 / 4 / 2 / 2 / 2 % 7 = encPC apc := by omega
  have q6 : X / 2 / 4 / 2 / 2 / 2 / 7 % 2 = b2n bn := by omega
  have q7 : X / 2 / 4 / 2 / 2 / 2 / 7 / 2 % 2 = b2n bsh := by omega
  have q8 : X / 2 / 4 / 2 / 2 / 2 / 7 / 2 / 2 % 7 = encPC bpc := by omega
  have q9 : X / 2 / 4 / 2 / 2 / 2 / 7 / 2 / 2 / 7 % 5 = encM m0 := by omega
  have q10 : X / 2 / 4 / 2 / 2 / 2 / 7 / 2 / 2 / 7 / 5 % 2 = b2n l0 := by
    omega
  have q11 : X / 2 / 4 / 2 / 2 / 2 / 7 / 2 / 2 / 7 / 5 / 2 % 5 = encM m1 := by
    omega
  have q12 : X / 2 / 4 / 2 / 2 / 2 / 7 / 2 / 2 / 7 / 5 / 2 / 5 % 2 = b2n l1 :=
    by omega
  rw [q0, q1, q2, q3, q4, q5, q6, q7, q8, q9, q10, q11, q12, hPdef,
    unpackPair_packPair]
  simp [unpackPair_packPair, decM_encM, decPC_encPC, decC_encC, b2n_eq_one]

def membN (x : Nat) (l : List Nat) : Bool := l.any fun y => x == y

/-- Closure of the encoded state set `RN` under the events of `E`. -/
def closedUnderN (E : List Ev) (RN : List Nat) : Bool :=
  RN.all fun n => E.all fun e => membN (encSys (step e (decSys n))) RN

def allHoldN (RN : List Nat) (p : Sys → Bool) : Bool :=
  RN.all fun n => p (decSys n)

theorem membN_iff (x : Nat) (l : List Nat) : membN x l = true ↔ x ∈ l := by
  constructor
  · intro h
    rw [membN, List.any_eq_true] at h
    obtain ⟨y, hy, hd⟩ := h
    rw [beq_iff_eq] at hd
    rw [hd]
    exact hy
  · intro h
    rw [membN, List.any_eq_true]
    exact ⟨x, h, by simp⟩

/-- Explicit-state argument: if the finite encoded set `RN` is closed under
the events of `E` and the decidable property `p` holds on all of `RN`, then
`p` holds after any sequence of `E`-events from any state of `RN`. -/
theorem exec_closedN (E : List Ev) (RN : List Nat) (p : Sys → Bool)
    (hcl : closedUnderN E RN = true) (hp : allHoldN RN p = true) :
    ∀ (evs : List Ev) (s : Sys), (∀ e ∈ evs, e ∈ E) →
      membN (encSys s) RN = true → p (exec evs s) = true := by
  have hstep : ∀ s : Sys, membN (encSys s) RN = true → ∀ e ∈ E,
      membN (encSys (step e s)) RN = true := by
    intro s hs e he
    rw [closedUnderN, List.all_eq_true] at hcl
    have h1 := List.all_eq_true.mp (hcl (encSys s) ((membN_iff _ _).mp hs)) e he
    rwa [decSys_encSys] at h1
  intro evs
  induction evs with
  | nil =>
    intro s _ hs
    rw [allHoldN, List.all_eq_true] at hp
    have h1 := hp (encSys s) ((membN_iff _ _).mp hs)
    rwa [decSys_encSys] at h1
  | cons e t ih =>
    intro s hE hs
    have hc : exec (e :: t) s = exec t (step e s) := rfl
    rw [hc]
    exact ih (step e s) (fun x hx => hE x (List.mem_cons_of_mem _ hx))
      (hstep s hs e (hE e (List.mem_cons_self _ _)))

end Annotator

namespace Annotator

set_option maxRecDepth 40000
set_option maxHeartbeats 16000000

/-- Event alphabet of annotator-call interleavings: running pending
segments and delivering network resolutions (with or without a cache
write); no toggle, no scan. -/
def runsDelivers : List Ev :=
  [.run false, .run true] ++
  ([false, true].flatMap fun i =>
    ([none, some false, some true] : List (Option Bool)).flatMap fun loc =>
      [Ev.deliver i loc false, Ev.deliver i loc true])

/-- Two annotator calls on two distinct nodes referencing the same
identifier, with an empty cache, about to be invoked. -/
def initConc : Sys :=
  { n0 := ⟨.unset, 0, true⟩, n1 := ⟨.unset, 0, true⟩,
    tA := ⟨false, .started, false⟩, tB := ⟨true, .started, false⟩,
    inProgress := false, cache := none, requests := 0, enabled := true }

/-- The two concurrent invocation orders: both calls run their synchronous
prefixes back to back (as `processUsernames` does) before any resolution. -/
def concSeeds : List Sys :=
  [exec [.run false, .run true] initConc, exec [.run true, .run false] initConc]

/-- Encoded reachable states of the two-concurrent-calls scenario under
`runsDelivers`, computed by breadth-first closure; the closure is re-checked
by `decide` inside `C2_dedup_single_resolution`. -/
def RC2N : List Nat := [
5724457,
  5843401,
  5982505,
  5762113,
  5762115,
  5762117,
  12021569,
  12021575,
  5868745,
  6220609,
  6220611,
  6220613,
  13621569,
  13621575,
  6020161,
  6020163,
  6020165,
  12279617,
  12279623,
  6245953,
  6245955,
  6245957,
  13646913,
  13646919]

/-- Number of calls whose network resolution is currently in flight. -/
def inFlight (s : Sys) : Nat :=
  (if s.tA.pc = .awaitNet then 1 else 0) +
    (if s.tB.pc = .awaitNet then 1 else 0)

def pC2 (s : Sys) : Bool :=
  decide (s.requests = 1) && decide (inFlight s ≤ 1) &&
    (!(decide (s.tA.pc = .awaitNet) || decide (s.tB.pc = .awaitNet)) ||
      s.inProgress)

/-- C2.  Calling the annotator concurrently on two distinct nodes that
reference the same identifier issues exactly one resolution request: along
every interleaving, the request counter stays at 1, at most one resolution
for the identifier is in flight at any instant, and while one is in flight
the identifier is still in the in-progress set (it is only removed by the
`finally` block when the resolution completes). -/
theorem C2_dedup_single_resolution (evs : List Ev) (s0 : Sys)
    (hE : ∀ e ∈ evs, e ∈ runsDelivers) (hs : s0 ∈ concSeeds) :
    (exec evs s0).requests = 1 ∧ inFlight (exec evs s0) ≤ 1 ∧
      ((exec evs s0).tA.pc = .awaitNet ∨ (exec evs s0).tB.pc = .awaitNet →
        (exec evs s0).inProgress = true) := by
  have hmem : membN (encSys s0) RC2N = true := by
    simp only [concSeeds, List.mem_cons, List.mem_singleton,
      List.not_mem_nil, or_false] at hs
    rcases hs with rfl | rfl <;> decide
  have h := exec_closedN runsDelivers RC2N pC2 (by decide) (by decide)
    evs s0 hE hmem
  rw [pC2] at h
  simp only [Bool.and_eq_true, Bool.or_eq_true, decide_eq_true_eq] at h
  obtain ⟨⟨h1, h2⟩, h3⟩ := h
  refine ⟨h1, h2, ?_⟩
  intro hor
  have hx : (decide ((exec evs s0).tA.pc = .awaitNet) ||
      decide ((exec evs s0).tB.pc = .awaitNet)) = true := by
    rcases hor with h4 | h4 <;> simp [h4]
  rcases h3 with h3 | h3
  · rw [hx] at h3
    simp at h3
  · exact h3

/-- C2, witness: one concrete interleaving of the scenario. -/
theorem C2_dedup_single_resolution_witness :
    (exec [Ev.deliver false (some true) true]
        (exec [.run false, .run true] initConc)).requests = 1 ∧
      inFlight (exec [Ev.deliver false (some true) true]
        (exec [.run false, .run true] initConc)) ≤ 1 ∧
      ((exec [Ev.deliver false (some true) true]
          (exec [.run false, .run true] initConc)).tA.pc = .awaitNet ∨
        (exec [Ev.deliver false (some true) true]
          (exec [.run false, .run true] initConc)).tB.pc = .awaitNet →
        (exec [Ev.deliver false (some true) true]
          (exec [.run false, .run true] initConc)).inProgress = true) :=
  C2_dedup_single_resolution [Ev.deliver false (some true) true]
    (exec [.run false, .run true] initConc) (by decide) (by decide)

/-- Two annotator calls on the same node and identifier (any invocation
timing, any prior cache content, with or without a locatable link). -/
def initSame (c : Option (Option Bool)) (hl : Bool) : Sys :=
  { n0 := ⟨.unset, 0, hl⟩, n1 := ⟨.unset, 0, true⟩,
    tA := ⟨false, .started, false⟩, tB := ⟨false, .started, false⟩,
    inProgress := false, cache := c, requests := 0, enabled := true }

/-- Encoded reachable states of the two-calls-on-one-node scenario under
`runsDelivers`, computed by breadth-first closure; the closure is re-checked
by `decide` inside `C6_no_duplicate_insertions`. -/
def RC6N : List Nat := [
629057,
  691777,
  629059,
  691779,
  629061,
  691781,
  629063,
  691783,
  5659497,
  5667273,
  5722217,
  5729993,
  641773,
  646093,
  704493,
  708813,
  641839,
  647887,
  704559,
  710607,
  5661289,
  5697153,
  5697155,
  5697157,
  5697159,
  5667337,
  5705793,
  5705795,
  5705797,
  5705799,
  5724009,
  5759873,
  5759875,
  5759877,
  12019329,
  12019335,
  5730057,
  5768513,
  5768515,
  5768517,
  12027969,
  12027975,
  679557,
  643565,
  646157,
  688197,
  742277,
  706285,
  708877,
  750917,
  679559,
  643631,
  647951,
  688199,
  1984135,
  706351,
  710671,
  1992775,
  5681001,
  5698945,
  5698947,
  5698949,
  5698951,
  10685193,
  5664013,
  5665807,
  5680137,
  5705857,
  5705859,
  5705861,
  5705863,
  10686057,
  5668333,
  5668399,
  5743721,
  5761665,
  5761667,
  5761669,
  12021121,
  12021127,
  10747913,
  5726733,
  12028289,
  12028295,
  5742857,
  5768577,
  5768579,
  5768581,
  12028033,
  12028039,
  10748777,
  5731053,
  646413,
  681349,
  663277,
  658957,
  688261,
  650733,
  709133,
  744069,
  725997,
  721677,
  750981,
  713453,
  648207,
  681351,
  663343,
  660751,
  688263,
  650799,
  1993095,
  1985927,
  726063,
  723471,
  1992839,
  5706113,
  5706115,
  5706117,
  5706119,
  5681025,
  5681027,
  5681029,
  5681031,
  10723713,
  10723715,
  10723717,
  10723719,
  5768833,
  5768835,
  5768837,
  5743745,
  5743747,
  5743749,
  10786433,
  10786435,
  10786437,
  22063489,
  22063495,
  688517,
  663429,
  751237,
  726149,
  688519,
  663431]

/-- Number of loading shimmers currently attached by the two calls. -/
def shims (s : Sys) : Nat := b2n s.tA.shimmer + b2n s.tB.shimmer

def pC6 (s : Sys) : Bool :=
  decide (s.n0.flags ≤ 1) && decide (shims s ≤ 1)

/-- C6.  Calling the annotator twice on the same node with the same
identifier never yields two flag images or two loading placeholders in the
node: along every interleaving of the two calls — whatever the cache
contents, resolution outcomes, and link heuristics — the node holds at most
one flag image and at most one shimmer at every instant. -/
theorem C6_no_duplicate_insertions (evs : List Ev)
    (c : Option (Option Bool)) (hl : Bool)
    (hE : ∀ e ∈ evs, e ∈ runsDelivers) :
    (exec evs (initSame c hl)).n0.flags ≤ 1 ∧
      shims (exec evs (initSame c hl)) ≤ 1 := by
  have hmem : membN (encSys (initSame c hl)) RC6N = true := by
    rcases c with _ | (_ | b)
    · cases hl <;> decide
    · cases hl <;> decide
    · cases b <;> cases hl <;> decide
  have h := exec_closedN runsDelivers RC6N pC6 (by decide) (by decide)
    evs (initSame c hl) hE hmem
  rw [pC6] at h
  simp only [Bool.and_eq_true, decide_eq_true_eq] at h
  exact h

/-- C6, witness: a concrete double call on one node. -/
theorem C6_no_duplicate_insertions_witness :
    (exec [Ev.run false, Ev.run true]
        (initSame none true)).n0.flags ≤ 1 ∧
      shims (exec [Ev.run false, Ev.run true] (initSame none true)) ≤ 1 :=
  C6_no_duplicate_insertions [Ev.run false, Ev.run true] none true (by decide)

end Annotator

namespace Annotator

/-- One annotator call pending on node `n0`; the second slot idle. -/
def initOne : Sys :=
  { n0 := ⟨.unset, 0, true⟩, n1 := ⟨.unset, 0, true⟩,
    tA := ⟨false, .started, false⟩, tB := ⟨true, .notStarted, false⟩,
    inProgress := false, cache := none, requests := 0, enabled := true }

/-- Scans skip any node whose `data-flag-added` attribute carries a value. -/
theorem scanStart_skip (s : Sys) (i j : Bool)
    (h : (getNode s j).marker ≠ .unset) : step (.scan i j) s = s := by
  show scanStart s i j = s
  rw [scanStart, if_neg]
  rintro ⟨_, hm, _⟩
  exact h hm

/-- Delivering a null resolution (in particular a bridge timeout, which is
not cached) marks the call's node `'failed'` and leaves the cache alone. -/
theorem deliver_none_failed (s : Sys) (i : Bool)
    (hpc : (getThread s i).pc = .awaitNet) :
    (getNode (step (.deliver i none false) s) (getThread s i).node).marker
      = .failed ∧ (step (.deliver i none false) s).cache = s.cache := by
  obtain ⟨n0, n1, ⟨na, pa, sa⟩, ⟨nb, pb, shb⟩, ip, c, req, en⟩ := s
  cases i
  · have hpa : pa = .awaitNet := hpc
    subst hpa
    cases na <;> cases sa <;>
      simp [step, seg2, getThread, setThread, getNode, setNode, setMarker,
        setPC]
  · have hpb : pb = .awaitNet := hpc
    subst hpb
    cases nb <;> cases shb <;>
      simp [step, seg2, getThread, setThread, getNode, setNode, setMarker,
        setPC]

/-- C7, counterexample.  The claim says a bridge timeout leaves the affected
node to be retried on the next scan rather than in a terminal per-node
state.  In the source, the timeout resolves the request with `null`, which
`addFlagToUsername` handles by marking the node `'failed'`; later scans skip
any marked node, so the node is terminal until the global reset. -/
theorem C7_counterexample :
    (runBridge "alice" 7 []).settled = some none ∧
    (runBridge "alice" 7 []).cacheWrites = [] ∧
    (exec [.run false, .deliver false none false] initOne).n0.marker
      = .failed ∧
    step (.scan true false) (exec [.run false, .deliver false none false]
      initOne) = exec [.run false, .deliver false none false] initOne := by
  refine ⟨by decide, by decide, by decide, ?_⟩
  apply scanStart_skip
  decide

/-- C7, amended.  A bridge timeout is recoverable at the identifier level
but terminal at the node level: the request resolves to no-location without
rejecting and nothing is cached (so a later lookup for the identifier misses
and may resolve again), but the affected node is marked `'failed'` — a
terminal per-node marker that every later scan skips until the global
reset. -/
theorem C7_timeout_terminal_per_node :
    (∀ (name : String) (id : Nat) (msgs : List (Nat × BridgeMsg)),
      (∀ tm ∈ msgs, tm.1 < TIMEOUT_MS → matchesResp name id tm.2 = false) →
        (runBridge name id msgs).settled = some none ∧
        (runBridge name id msgs).cacheWrites = []) ∧
    (∀ (s : Sys) (i : Bool), (getThread s i).pc = .awaitNet →
      (getNode (step (.deliver i none false) s) (getThread s i).node).marker
        = .failed ∧ (step (.deliver i none false) s).cache = s.cache) ∧
    (∀ (s : Sys) (i j : Bool), (getNode s j).marker ≠ .unset →
      step (.scan i j) s = s) := by
  refine ⟨?_, deliver_none_failed, scanStart_skip⟩
  intro name id msgs h
  rw [runBridge_eq_timeout]
  have hpre : ∀ tm ∈ msgs.filter (fun tm => decide (tm.1 < TIMEOUT_MS)),
      matchesResp name id tm.2 = false := by
    intro tm htm
    rw [List.mem_filter] at htm
    exact h tm htm.1 (by simpa using htm.2)
  rw [foldl_handleMsg_nomatch name id _ initPromise hpre]
  exact ⟨rfl, rfl⟩

/-- C7, witness for the amended theorem. -/
theorem C7_timeout_terminal_per_node_witness :
    ((runBridge "bob" 3 []).settled = some none ∧
      (runBridge "bob" 3 []).cacheWrites = []) ∧
    ((getNode (step (.deliver false none false)
        (exec [.run false] initOne))
        (getThread (exec [.run false] initOne) false).node).marker
      = .failed ∧
      (step (.deliver false none false)
        (exec [.run false] initOne)).cache
        = (exec [.run false] initOne).cache) ∧
    step (.scan false false) (exec [.run false] initOne)
      = exec [.run false] initOne := by
  refine ⟨?_, ?_, ?_⟩
  · exact C7_timeout_terminal_per_node.1 "bob" 3 []
      (by intro tm htm; simp at htm)
  · exact C7_timeout_terminal_per_node.2.1 (exec [.run false] initOne) false
      (by decide)
  · exact C7_timeout_terminal_per_node.2.2 (exec [.run false] initOne) false
      false (by decide)

/-- C8.  The transition to disabled is a hard reset: afterwards both nodes
hold zero flag images, both shimmers are detached, both `data-flag-added`
markers are deleted, the cache and the in-progress set are empty and the
extension is disabled; and re-enabling followed by a scan of a node
re-invokes the annotator and enqueues a fresh resolution request for the
identifier (the cache having been cleared). -/
theorem C8_disable_hard_reset (s : Sys)
    (hfree : s.tA.pc = .notStarted ∨ s.tA.pc = .finished) :
    (step .disable s).n0.flags = 0 ∧ (step .disable s).n1.flags = 0 ∧
    (step .disable s).n0.marker = .unset ∧
    (step .disable s).n1.marker = .unset ∧
    (step .disable s).tA.shimmer = false ∧
    (step .disable s).tB.shimmer = false ∧
    (step .disable s).cache = none ∧ (step .disable s).inProgress = false ∧
    (step .disable s).enabled = false ∧
    (exec [.enable, .scan false false, .run false]
        (step .disable s)).requests = s.requests + 1 := by
  obtain ⟨n0, n1, ⟨na, pa, sa⟩, ⟨nb, pb, shb⟩, ip, c, req, en⟩ := s
  rcases hfree with h | h <;>
    (have hpa : pa = _ := h; subst hpa) <;>
    simp [step, removeAllFlags, exec, scanStart, seg1, wake, getNode,
      setNode, getThread, setThread, setMarker, setPC]

/-- C8, witness at a concrete pre-disable state. -/
theorem C8_disable_hard_reset_witness :
    (step .disable (exec [.run false, .deliver false (some true) true]
        initOne)).n0.flags = 0 ∧
    (step .disable (exec [.run false, .deliver false (some true) true]
        initOne)).n1.flags = 0 ∧
    (step .disable (exec [.run false, .deliver false (some true) true]
        initOne)).n0.marker = .unset ∧
    (step .disable (exec [.run false, .deliver false (some true) true]
        initOne)).n1.marker = .unset ∧
    (step .disable (exec [.run false, .deliver false (some true) true]
        initOne)).tA.shimmer = false ∧
    (step .disable (exec [.run false, .deliver false (some true) true]
        initOne)).tB.shimmer = false ∧
    (step .disable (exec [.run false, .deliver false (some true) true]
        initOne)).cache = none ∧
    (step .disable (exec [.run false, .deliver false (some true) true]
        initOne)).inProgress = false ∧
    (step .disable (exec [.run false, .deliver false (some true) true]
        initOne)).enabled = false ∧
    (exec [.enable, .scan false false, .run false] (step .disable
        (exec [.run false, .deliver false (some true) true]
          initOne))).requests =
      (exec [.run false, .deliver false (some true) true]
        initOne).requests + 1 :=
  C8_disable_hard_reset
    (exec [.run false, .deliver false (some true) true] initOne)
    (by decide)

/-- C9.  Disabling does not guarantee the document stays flag-free: in the
interleaving where one annotation is suspended awaiting its location when
the disable reset runs, the resumed continuation still inserts its flag
image and marks the node `'true'`, because `extensionEnabled` is not
re-checked after the `await` — concretely, after the call's synchronous
prefix, a disable reset, and then delivery of a mappable location, the
extension is disabled yet the node holds one flag image and the marker
`'true'`. -/
theorem C9_flag_inserted_after_disable :
    (exec [.run false, .disable, .deliver false (some true) true]
        initOne).enabled = false ∧
    (exec [.run false, .disable, .deliver false (some true) true]
        initOne).n0.flags = 1 ∧
    (exec [.run false, .disable, .deliver false (some true) true]
        initOne).n0.marker = .flagged := by
  decide

/-- Everything the content script can do except the disable reset. -/
def E10 : List Ev :=
  runsDelivers ++ [Ev.enable] ++
    ([false, true].flatMap fun i => [Ev.scan i false, Ev.scan i true])

/-- The state in which the second call, diverted by the in-progress set,
woke from its 500 ms sleep while the first call's resolution was still
pending and so marked its node (`n1`) `'waiting'`. -/
def waitingSeed : Sys := exec [.run false, .run true, .run true] initConc

/-- Encoded reachable states of `waitingSeed` under `E10` (breadth-first
closure, re-checked by `decide` inside `C10_waiting_node_starved`). -/
def RC10N : List Nat :=
  [5982505, 6020161, 6020163, 6020165, 12279617, 12279623]

def p10 (s : Sys) : Bool :=
  decide (s.n1.marker = .waiting) && decide (s.n1.flags = 0)

/-- C10.  A node marked `'waiting'` is never processed again within the
session: every scan skips every node carrying any marker value, and along
every event sequence that does not contain the global reset (`E10` is the
whole alphabet minus `disable`), the waiting node keeps its `'waiting'`
marker and never receives a flag image. -/
theorem C10_waiting_node_starved :
    (∀ (s : Sys) (i j : Bool), (getNode s j).marker ≠ .unset →
      step (.scan i j) s = s) ∧
    (∀ evs : List Ev, (∀ e ∈ evs, e ∈ E10) →
      (exec evs waitingSeed).n1.marker = .waiting ∧
      (exec evs waitingSeed).n1.flags = 0) := by
  refine ⟨scanStart_skip, ?_⟩
  intro evs hE
  have h := exec_closedN E10 RC10N p10 (by decide) (by decide)
    evs waitingSeed hE (by decide)
  rw [p10] at h
  simp only [Bool.and_eq_true, decide_eq_true_eq] at h
  exact h

/-- C10, witness: a scan skips the concrete waiting node, and a concrete
continuation (the pending resolution arriving, a scan, another run) leaves
the waiting node flagless and still `'waiting'`. -/
theorem C10_waiting_node_starved_witness :
    step (.scan false true) waitingSeed = waitingSeed ∧
    ((exec [Ev.deliver false (some true) true, Ev.scan false true,
        Ev.run true] waitingSeed).n1.marker = .waiting ∧
      (exec [Ev.deliver false (some true) true, Ev.scan false true,
        Ev.run true] waitingSeed).n1.flags = 0) :=
  ⟨C10_waiting_node_starved.1 waitingSeed false true (by decide),
   C10_waiting_node_starved.2
     [Ev.deliver false (some true) true, Ev.scan false true, Ev.run true]
     (by decide)⟩

end Annotator
